import Mathlib

/-!
Verification of the Sentinel networking layer and its health-check boundary
(gfxlabs/erigon lightclient). Shallow embedding: Go functions become Lean
functions over explicit state; machine integers become `Nat`/`Int` with
explicit bounds; fallible code returns `Option`/`Except`. Bytes are `Nat`
values below 256, byte strings are `List Nat`, Go strings are `List Char`.
-/

namespace SszSnappy

/-- A byte, represented as a natural number (semantically below 256). -/
abbrev Byte := Nat

/-- Little-endian encoding of a natural number into exactly `k` bytes. -/
def natToLE : Nat → Nat → List Byte
  | 0, _ => []
  | k + 1, n => (n % 256) :: natToLE k (n / 256)

/-- Little-endian decoding of a byte list back to a natural number. -/
def leToNat : List Byte → Nat
  | [] => 0
  | b :: bs => b + 256 * leToNat bs

/-- Fuel-indexed worker for the varint writer; `n + 1` units of fuel always
suffice since the value shrinks by a factor of 128 every step. -/
def uvarintAux : Nat → Nat → List Byte
  | 0, _ => []
  | fuel + 1, n =>
      if n < 128 then [n] else (n % 128 + 128) :: uvarintAux fuel (n / 128)

/-- Modelled from the spec: the "length-prefix varint" of the wire format,
as the standard base-128 unsigned varint (low 7 bits first, high bit set on
every byte except the last). The codec source (ssz_snappy package) is not
under src/. -/
def uvarint (n : Nat) : List Byte := uvarintAux (n + 1) n

/-- Modelled from the spec: incremental varint reader; returns the decoded
value and the remaining bytes of the stream. -/
def uvarintDecode : List Byte → Option (Nat × List Byte)
  | [] => none
  | b :: bs =>
      if b < 128 then some (b, bs)
      else
        match uvarintDecode bs with
        | none => none
        | some (n, rest) => some (b - 128 + 128 * n, rest)

/-- Modelled from the spec: "compress with a streaming block-compression
scheme". The model emits each payload byte as a one-byte snappy literal
element (tag byte 0, then the byte), after the scheme's uncompressed-length
varint preamble. -/
def literalChunks : List Byte → List Byte
  | [] => []
  | b :: bs => 0 :: b :: literalChunks bs

/-- Modelled from the spec: the compressed block for a payload. -/
def compress (bs : List Byte) : List Byte :=
  uvarint bs.length ++ literalChunks bs

/-- Fuel-indexed worker for the element-stream decoder; fuel equal to the
input length always suffices since every element consumes at least one tag
byte. -/
def decompressChunksAux : Nat → List Byte → Option (List Byte)
  | _, [] => some []
  | 0, _ :: _ => none
  | fuel + 1, t :: rest =>
      if t % 4 = 0 then
        let len := t / 4 + 1
        if rest.length < len then none
        else
          match decompressChunksAux fuel (rest.drop len) with
          | none => none
          | some out => some (rest.take len ++ out)
      else none

/-- Modelled from the spec: element-stream decoder for the compression
scheme. Only literal elements (tag with low two bits zero) are produced by
the model's compressor; any other tag is rejected. -/
def decompressChunks (bs : List Byte) : Option (List Byte) :=
  decompressChunksAux bs.length bs

/-- Modelled from the spec: decompression checks the declared uncompressed
length against the actual output. -/
def decompress (bs : List Byte) : Option (List Byte) :=
  match uvarintDecode bs with
  | none => none
  | some (n, rest) =>
      match decompressChunks rest with
      | none => none
      | some out => if out.length = n then some out else none

/-- Modelled from the spec: the registered point-to-point message kinds
("Ping, Status, Metadata, BlocksByRange"). Streams are scoped to one
protocol identifier, so the expected kind is known to the decoder. -/
inductive MsgKind where
  | ping | status | metadata | blocksByRange
deriving DecidableEq

/-- Modelled from the spec: the "tagged union over request/response kinds
..., each with a fixed field schema". The spec fixes only the ping schema (a
single 8-byte unsigned sequence number); metadata's three fields come from
the MetadataV2 literal in the sentinel source; the remaining kinds are given
representative fixed schemas of 8-byte unsigned fields. -/
inductive ProtocolMessage where
  | ping (id : Nat)
  | status (forkDigest finalizedEpoch headSlot : Nat)
  | metadata (seqNumber attnets syncnets : Nat)
  | blocksByRange (startSlot count step : Nat)
deriving DecidableEq

/-- The kind of a message. -/
def kindOf : ProtocolMessage → MsgKind
  | .ping _ => .ping
  | .status _ _ _ => .status
  | .metadata _ _ _ => .metadata
  | .blocksByRange _ _ _ => .blocksByRange

/-- Validity: every field fits in its 8-byte unsigned slot. -/
def ValidMsg : ProtocolMessage → Prop
  | .ping id => id < 256 ^ 8
  | .status a b c => a < 256 ^ 8 ∧ b < 256 ^ 8 ∧ c < 256 ^ 8
  | .metadata a b c => a < 256 ^ 8 ∧ b < 256 ^ 8 ∧ c < 256 ^ 8
  | .blocksByRange a b c => a < 256 ^ 8 ∧ b < 256 ^ 8 ∧ c < 256 ^ 8

instance : DecidablePred ValidMsg := by
  intro m
  cases m <;> simp only [ValidMsg] <;> infer_instance

/-- Modelled from the spec: "serialize the message to its fixed schema" —
fixed-width little-endian fields, concatenated. -/
def serialize : ProtocolMessage → List Byte
  | .ping id => natToLE 8 id
  | .status a b c => natToLE 8 a ++ natToLE 8 b ++ natToLE 8 c
  | .metadata a b c => natToLE 8 a ++ natToLE 8 b ++ natToLE 8 c
  | .blocksByRange a b c => natToLE 8 a ++ natToLE 8 b ++ natToLE 8 c

/-- Modelled from the spec: deserialization for a known kind; "reject any
remaining trailing bytes as a schema violation" is the exact length check. -/
def deserialize (k : MsgKind) (bs : List Byte) : Option ProtocolMessage :=
  match k with
  | .ping =>
      if bs.length = 8 then some (.ping (leToNat bs)) else none
  | .status =>
      if bs.length = 24 then
        some (.status (leToNat (bs.take 8)) (leToNat ((bs.drop 8).take 8))
          (leToNat (bs.drop 16)))
      else none
  | .metadata =>
      if bs.length = 24 then
        some (.metadata (leToNat (bs.take 8)) (leToNat ((bs.drop 8).take 8))
          (leToNat (bs.drop 16)))
      else none
  | .blocksByRange =>
      if bs.length = 24 then
        some (.blocksByRange (leToNat (bs.take 8))
          (leToNat ((bs.drop 8).take 8)) (leToNat (bs.drop 16)))
      else none

/-- Modelled from the spec: the configured maximum message size bounding
memory exposure to hostile peers (1 MiB, the network config's gossip/chunk
ceiling). -/
def maxMessageSize : Nat := 1048576

/-- Modelled from the spec: "encode(message) -> frame bytes" — serialize,
compress, emit the compressed block prefixed by a length-prefix varint. -/
def encode (m : ProtocolMessage) : List Byte :=
  uvarint (compress (serialize m)).length ++ compress (serialize m)

/-- Modelled from the spec: "decode(byte source) -> (message, raw bytes) |
error" — read the varint, reject a declared length exceeding the maximum
before decompression, read exactly that many compressed bytes, decompress,
deserialize; the unread remainder of the source is returned. -/
def decode (k : MsgKind) (source : List Byte) :
    Option (ProtocolMessage × List Byte) :=
  match uvarintDecode source with
  | none => none
  | some (len, rest) =>
      if len > maxMessageSize then none
      else if rest.length < len then none
      else
        match decompress (rest.take len) with
        | none => none
        | some payload =>
            match deserialize k payload with
            | none => none
            | some m => some (m, rest.drop len)

end SszSnappy

namespace GoStr

/-- Go strings are modelled as lists of characters. -/
abbrev Str := List Char

/-- ASCII lower-casing of one character (the fragment of Go's
strings.ToLower exercised by the health-check headers). -/
def charToLower (c : Char) : Char :=
  if 65 ≤ c.toNat ∧ c.toNat ≤ 90 then Char.ofNat (c.toNat + 32) else c

/-- Go strings.ToLower. -/
def strToLower (s : Str) : Str := s.map charToLower

/-- Go strings.HasPrefix: does `s` start with `p`. -/
def hasPre : Str → Str → Bool
  | [], _ => true
  | _ :: _, [] => false
  | p :: ps, c :: cs => p == c && hasPre ps cs

/-- Go strings.TrimPrefix: drop `p` from the front of `s` when present. -/
def trimPre (p s : Str) : Str :=
  if hasPre p s then s.drop p.length else s

/-- Go strings.Contains: does `s` contain `n` as a contiguous substring. -/
def hasSub (n : Str) : Str → Bool
  | [] => n.isEmpty
  | c :: cs => hasPre n (c :: cs) || hasSub n cs

/-- Decimal digit characters of a natural number. -/
def natChars (n : Nat) : Str := Nat.toDigits 10 n

/-- Decimal rendering of an integer, Go's %d. -/
def intChars (i : Int) : Str :=
  if i < 0 then '-' :: natChars i.natAbs else natChars i.natAbs

/-- Accumulating decimal parser over digit characters. -/
def digitsValAux : Str → Nat → Option Nat
  | [], acc => some acc
  | c :: cs, acc =>
      if 48 ≤ c.toNat ∧ c.toNat ≤ 57 then
        digitsValAux cs (acc * 10 + (c.toNat - 48))
      else none

/-- Value of a nonempty all-digits string. -/
def digitsVal (cs : Str) : Option Nat :=
  match cs with
  | [] => none
  | _ :: _ => digitsValAux cs 0

/-- Go strconv.Atoi error for invalid syntax. -/
def atoiSyntaxErr (s : Str) : Str :=
  ("strconv.Atoi: parsing \"").toList ++ s ++ ("\": invalid syntax").toList

/-- Go strconv.Atoi error for out-of-range values. -/
def atoiRangeErr (s : Str) : Str :=
  ("strconv.Atoi: parsing \"").toList ++ s ++ ("\": value out of range").toList

/-- Go strconv.Atoi: an optional single sign, then one or more decimal
digits, with the 64-bit signed range check of the runtime's int. -/
def atoi (s : Str) : Except Str Int :=
  let signed : Bool × Str :=
    match s with
    | '+' :: rest => (false, rest)
    | '-' :: rest => (true, rest)
    | _ => (false, s)
  match digitsVal signed.2 with
  | none => .error (atoiSyntaxErr s)
  | some n =>
      let v : Int := if signed.1 then -(n : Int) else (n : Int)
      if v < -(2 ^ 63) ∨ 2 ^ 63 - 1 < v then .error (atoiRangeErr s)
      else .ok v

/-- Go's uint conversion of a (64-bit) int: reduction modulo 2^64. -/
def uintOfInt (i : Int) : Nat := (i % (2 ^ 64 : Nat)).toNat

/-- Go's conversion int(cs) of a uint64 value on a 64-bit platform: the
two's-complement reinterpretation of the value modulo 2^64 into the range
[-2^63, 2^63). -/
def int64OfUint64 (n : Nat) : Int :=
  if n % 2 ^ 64 < 2 ^ 63 then ((n % 2 ^ 64 : Nat) : Int)
  else ((n % 2 ^ 64 : Nat) : Int) - 2 ^ 64

end GoStr

namespace Health

open GoStr

/-- An error value in the health package: Go's nil error, the sentinel
errCheckDisabled, or any other error carrying its message. -/
inductive HErr where
  | ok
  | disabled
  | fail (msg : Str)
deriving DecidableEq

/-- The JSON request body of the body-driven health mode (health.go
requestBody: optional min_peer_count and known_block). -/
structure RequestBody where
  minPeerCount : Option Nat
  blockNumber : Option Int
deriving DecidableEq

/-- The environment the checks consult: peer count, the outcomes of the
RPC-backed checks, the latest block's timestamp field, and the clock.
These model the out-of-src net/eth API collaborators; `none` means the
check passed, `some msg` that it failed with that error. -/
structure Env where
  peerCount : Nat
  syncedCheck : Option Str
  blockCheck : Int → Option Str
  latestBlock : Except Str (Option Nat)
  now : Int

/-- An HTTP response body: header mode writes a plain string, body mode a
JSON object modelled as its key/value pairs. -/
inductive HBody where
  | plain (s : Str)
  | jsonMap (kvs : List (Str × Str))
deriving DecidableEq

/-- The observable HTTP response: status code and body. -/
structure HealthResponse where
  status : Nat
  body : HBody
deriving DecidableEq

/-- The request as the handler sees it: URL path, the values of the
X-ERIGON-HEALTHCHECK header, and the outcome of reading and JSON-decoding
the body (parseHealthCheckBody). -/
structure HealthRequest where
  path : Str
  headers : List Str
  bodyParse : Except Str RequestBody

/-- health.go errorStringOrOK. -/
def errorStringOrOK : HErr → Str
  | .ok => ("HEALTHY").toList
  | .disabled => ("DISABLED").toList
  | .fail m => ("ERROR: ").toList ++ m

/-- health.go shouldChangeStatusCode: a non-nil error that is not the
disabled sentinel. -/
def shouldChangeStatusCode : HErr → Bool
  | .fail _ => true
  | _ => false

/-- health.go reportHealth: the status code after the three sequential
checks and the JSON object written, as its key/value pairs in insertion
order. -/
def reportHealth (errParse errMinPeerCount errCheckBlock : HErr) :
    Nat × List (Str × Str) :=
  let st1 := if shouldChangeStatusCode errParse then 500 else 200
  let st2 := if shouldChangeStatusCode errMinPeerCount then 500 else st1
  let st3 := if shouldChangeStatusCode errCheckBlock then 500 else st2
  (st3, [(("healthcheck_query").toList, errorStringOrOK errParse),
         (("min_peer_count").toList, errorStringOrOK errMinPeerCount),
         (("check_block").toList, errorStringOrOK errCheckBlock)])

/-- Modelled from the spec: "a query for whether peer count meets a
caller-supplied minimum threshold" — checkMinPeers (not under src/) errors
when the connected-peer count is below the minimum. -/
def checkMinPeers (minPeerCount : Nat) (peerCount : Nat) : Option Str :=
  if peerCount < minPeerCount then
    some (("not enough peers: ").toList ++ natChars peerCount ++
      (" (minimum ").toList ++ natChars minPeerCount ++ (")").toList)
  else none

/-- part_001 processTimeCheck: fetch the latest block; `timestamp = int(cs)`
wraps the uint64 timestamp field into a 64-bit int when present, else stays
0; error when that timestamp exceeds the `seconds` bound. -/
def processTimeCheck (env : Env) (seconds : Int) : Option Str :=
  match env.latestBlock with
  | .error e => some e
  | .ok tsField =>
      let timestamp : Int :=
        match tsField with | some ts => int64OfUint64 ts | none => 0
      if timestamp > seconds then
        some (("got ts: ").toList ++ intChars timestamp ++
          (", need: ").toList ++ intChars seconds)
      else none

/-- One iteration of the ProcessHealthcheck2 header loop (part_001): the
header value is lower-cased and run through the four prefix-driven checks
in order; the first failing check's error is returned. -/
def ph2Header (env : Env) (header0 : Str) : Option Str :=
  let header := strToLower header0
  let r1 := if header = ("synced").toList then env.syncedCheck else none
  match r1 with
  | some e => some e
  | none =>
  let r2 :=
    if hasPre (("check_block").toList) header then
      match atoi (trimPre (("check_block").toList) header) with
      | .error e => some e
      | .ok n => env.blockCheck n
    else none
  match r2 with
  | some e => some e
  | none =>
  let r3 :=
    if hasPre (("min_peer_count").toList) header then
      match atoi (trimPre (("min_peer_count").toList) header) with
      | .error e => some e
      | .ok n => checkMinPeers (uintOfInt n) env.peerCount
    else none
  match r3 with
  | some e => some e
  | none =>
    if hasPre (("max_seconds_behind").toList) header then
      match atoi (trimPre (("max_seconds_behind").toList) header) with
      | .error e => some e
      | .ok secs0 =>
          let secs := if secs0 < 0 then 600 else secs0
          processTimeCheck env (env.now - secs)
    else none

/-- part_001 ProcessHealthcheck2: run every header value's checks, stopping
at the first error. -/
def ProcessHealthcheck2 (env : Env) : List Str → Option Str
  | [] => none
  | h :: rest =>
      match ph2Header env h with
      | some e => some e
      | none => ProcessHealthcheck2 env rest

/-- Lift a check outcome to the error type of reportHealth. -/
def liftCheck : Option Str → HErr
  | none => .ok
  | some m => .fail m

/-- The body-mode response assembled by reportHealth. -/
def mkBodyResponse (e1 e2 e3 : HErr) : HealthResponse :=
  let r := reportHealth e1 e2 e3
  { status := r.1, body := .jsonMap r.2 }

/-- health.go ProcessHealthcheckIfNeeded: on the /health path, header mode
(first header value nonempty) runs ProcessHealthcheck2 and writes status
500 plus the bare error string on failure, else 200 and HEALTHY; body mode
runs the checks selected by the parsed JSON body and writes the
reportHealth JSON. Returns none when the path does not match. -/
def ProcessHealthcheckIfNeeded (env : Env) (r : HealthRequest) :
    Option HealthResponse :=
  if ¬ (strToLower r.path = ("/health").toList) then none
  else
    let headerGet : Str := match r.headers with | [] => [] | h :: _ => h
    if headerGet ≠ [] then
      some (match ProcessHealthcheck2 env r.headers with
        | some e => { status := 500, body := .plain (errorStringOrOK (.fail e)) }
        | none => { status := 200, body := .plain (errorStringOrOK .ok) })
    else
      some (match r.bodyParse with
        | .error e => mkBodyResponse (.fail e) .disabled .disabled
        | .ok body =>
            let errMinPeerCount := match body.minPeerCount with
              | none => HErr.disabled
              | some mp => liftCheck (checkMinPeers mp env.peerCount)
            let errCheckBlock := match body.blockNumber with
              | none => HErr.disabled
              | some bn => liftCheck (env.blockCheck bn)
            mkBodyResponse .ok errMinPeerCount errCheckBlock)

end Health

namespace Sentinel

open GoStr

/-- The world an outbound ping exchange runs against: whether a random
peer was found, whether the stream opened, the outcome of WritePacket, the
outcome of CloseWrite (errors only logged), and the bytes the peer sends
back (status byte first, then the response frame). -/
structure PingWorld where
  connectOk : Bool
  streamOpenOk : Bool
  writeResult : Except Str Nat
  closeWriteOk : Bool
  response : List SszSnappy.Byte

/-- What pingRequest observably did: whether the stream was opened and
closed, the status byte it read (if any), whether it attempted to decode a
response frame, whether it reached the final response log, and the value
of rping.Id at exit (its zero value unless a decode succeeded). -/
structure PingOutcome where
  streamOpened : Bool
  streamClosed : Bool
  statusByte : Option Nat
  decodeAttempted : Bool
  completed : Bool
  pongId : Nat
deriving DecidableEq

/-- part_002 pingRequest: send Ping{Id: 1}, require an 8-byte write, close
write, read one status byte (a read error is only logged and leaves the
byte at its zero value), decode the response frame only when that byte
equals 1, and close the stream (deferred) on every path after opening. -/
def pingRequest (w : PingWorld) : PingOutcome :=
  if ¬ w.connectOk then
    ⟨false, false, none, false, false, 0⟩
  else if ¬ w.streamOpenOk then
    ⟨false, false, none, false, false, 0⟩
  else
    match w.writeResult with
    | .error _ => ⟨true, true, none, false, false, 0⟩
    | .ok n =>
        if n ≠ 8 then ⟨true, true, none, false, false, 0⟩
        else
          let statusRead : Option Nat :=
            match w.response with | [] => none | b :: _ => some b
          let code : Nat :=
            match w.response with | [] => 0 | b :: _ => b
          if code = 1 then
            match SszSnappy.decode .ping (w.response.drop 1) with
            | none => ⟨true, true, statusRead, true, false, 0⟩
            | some (.ping id, _) => ⟨true, true, statusRead, true, true, id⟩
            | some (_, _) => ⟨true, true, statusRead, true, true, 0⟩
          else ⟨true, true, statusRead, false, true, 0⟩

/-- The ping request packet the exchange writes (p2p.Ping with Id 1). -/
def pingPacket : SszSnappy.ProtocolMessage := .ping 1

/-- A gossip subscription as GetPeersCount consults it: the peers
currently on its topic. -/
structure GossipSubscription where
  topicPeers : List Nat
deriving DecidableEq

/-- Modelled from the spec: the light-client finality-update gossip
topic-name fragment (the constant's definition is not under src/; only its
use in GetPeersCount is). -/
def LightClientFinalityUpdateTopic : Str :=
  ("light_client_finality_update").toList

/-- The sentinel state GetPeersCount reads: the host's connected network
peers and the gossip manager's subscription map (as an association list in
iteration order). -/
structure SentinelState where
  networkPeers : List Nat
  subscriptions : List (Str × GossipSubscription)

/-- sentinel GetPeersCount: scan the subscription map for a topic
containing the finality-update fragment (the last match wins); with such a
subscription return its topic's peer count, otherwise the host's connected
peer count. -/
def GetPeersCount (s : SentinelState) : Nat :=
  let sub := s.subscriptions.foldl
    (fun acc p =>
      if hasSub LightClientFinalityUpdateTopic p.1 then some p.2 else acc)
    none
  match sub with
  | none => s.networkPeers.length
  | some sub => sub.topicPeers.length

/-- An IP address as Go's net package classifies it: a 4-byte IPv4 address
or a 16-byte IPv6 address. -/
inductive IPAddr where
  | v4 (a b c d : Nat)
  | v6 (bytes : List Nat)
deriving DecidableEq

/-- Go net.IP.To4 on a ParseIP result (none models Go's nil): the 4-byte
form for IPv4 and IPv4-mapped IPv6 addresses, nil otherwise. -/
def ipTo4 : Option IPAddr → Option (Nat × Nat × Nat × Nat)
  | none => none
  | some (.v4 a b c d) => some (a, b, c, d)
  | some (.v6 bs) =>
      match bs with
      | [0, 0, 0, 0, 0, 0, 0, 0, 0, 0, 255, 255, a, b, c, d] => some (a, b, c, d)
      | _ => none

/-- Go net.IP.To16 ≠ nil on a ParseIP result: true for every successfully
parsed 4-byte or 16-byte address. -/
def ipTo16 : Option IPAddr → Bool
  | none => false
  | some (.v4 _ _ _ _) => true
  | some (.v6 bs) => bs.length == 16

/-- The spec's notion of a usable configured address, written from the
spec's words ("a usable IPv4 or IPv6 address"): the string parses as a
well-formed IPv4 or IPv6 address. Stated for comparison with what
createListener actually accepts. -/
def specUsableAddr : Option IPAddr → Bool
  | none => false
  | some (.v4 a b c d) => a < 256 && b < 256 && c < 256 && d < 256
  | some (.v6 bs) => bs.length == 16 && bs.all (· < 256)

/-- Which UDP network the listener binds. -/
inductive BindChoice where
  | udp4 | udp6
deriving DecidableEq

/-- The world createListener runs against: the configured address string,
its ParseIP result, and the outcomes of the bind, local-node and
discovery-listen steps (some = that step's error). -/
structure ListenWorld where
  ipAddrStr : Str
  parsedIP : Option IPAddr
  listenUDPErr : Option Str
  localNodeErr : Option Str
  listenV5Err : Option Str

/-- sentinel createListener: reject any address whose To4 form is nil with
an "IPV4 address not provided" error; then the network-version switch (its
IPv6 branch is unreachable behind that guard); then bind the UDP socket,
build the local node and start discovery, propagating each error. -/
def createListener (w : ListenWorld) : Except Str BindChoice :=
  if ipTo4 w.parsedIP = none then
    .error (("IPV4 address not provided instead ").toList ++ w.ipAddrStr ++
      (" was provided").toList)
  else
    let choice : Except Str BindChoice :=
      if ipTo16 w.parsedIP ∧ ipTo4 w.parsedIP = none then .ok .udp6
      else if ipTo4 w.parsedIP ≠ none then .ok .udp4
      else
        .error (("bad ip address provided, ").toList ++ w.ipAddrStr ++
          (" was provided").toList)
    match choice with
    | .error e => .error e
    | .ok c =>
        match w.listenUDPErr with
        | some e => .error e
        | none =>
            match w.localNodeErr with
            | some e => .error e
            | none =>
                match w.listenV5Err with
                | some e => .error e
                | none => .ok c

/-- sentinel Start: create the listener, wrapping and returning its error;
then connect to the bootnodes, wrapping and returning that error;
otherwise startup succeeds. -/
def Start (w : ListenWorld) (bootnodesErr : Option Str) : Except Str BindChoice :=
  match createListener w with
  | .error e => .error (("failed creating sentinel listener err=").toList ++ e)
  | .ok c =>
      match bootnodesErr with
      | some e => .error (("failed to connect to bootnodes err=").toList ++ e)
      | none => .ok c

end Sentinel

/-- Whether an Except value is a success. -/
def isOkE {ε α : Type} : Except ε α → Bool
  | .ok _ => true
  | .error _ => false

/-- A concrete health environment: 3 connected peers, all RPC-backed checks
passing, latest block timestamp 0, clock at 0. -/
def env3 : Health.Env :=
  { peerCount := 3, syncedCheck := none, blockCheck := fun _ => none,
    latestBlock := .ok (some 0), now := 0 }

/-- A concrete health environment for the time check: latest block
timestamp 5, clock at 1000. -/
def envTime : Health.Env :=
  { peerCount := 3, syncedCheck := none, blockCheck := fun _ => none,
    latestBlock := .ok (some 5), now := 1000 }

/-- A concrete health environment whose latest block carries the uint64
timestamp 2^63, which Go's int conversion wraps to -2^63; clock at 1000. -/
def envWrap : Health.Env :=
  { peerCount := 3, syncedCheck := none, blockCheck := fun _ => none,
    latestBlock := .ok (some (2 ^ 63)), now := 1000 }

/-- A ping world whose peer answers with status byte 0 (the spec's success
code) followed by the encoded echo frame Ping with Id 1. -/
def pingWorldStatus0 : Sentinel.PingWorld :=
  ⟨true, true, .ok 8, true, 0 :: SszSnappy.encode (.ping 1)⟩

/-- A ping world whose WritePacket reports 7 bytes written. -/
def pingWorldShortWrite : Sentinel.PingWorld :=
  ⟨true, true, .ok 7, true, 1 :: SszSnappy.encode (.ping 1)⟩

/-- A listen world configured with the usable IPv6 loopback address. -/
def listenWorldV6 : Sentinel.ListenWorld :=
  ⟨("::1").toList, some (.v6 [0, 0, 0, 0, 0, 0, 0, 0, 0, 0, 0, 0, 0, 0, 0, 1]),
    none, none, none⟩

namespace SszSnappy

theorem length_natToLE (k n : Nat) : (natToLE k n).length = k := by
  induction k generalizing n with
  | zero => rfl
  | succ k ih => simp [natToLE, ih]

theorem leToNat_natToLE (k n : Nat) (h : n < 256 ^ k) :
    leToNat (natToLE k n) = n := by
  induction k generalizing n with
  | zero => simp [Nat.lt_one_iff.mp (by simpa using h), natToLE, leToNat]
  | succ k ih =>
      have hdiv : n / 256 < 256 ^ k := by
        rw [Nat.div_lt_iff_lt_mul (by norm_num)]
        calc n < 256 ^ (k + 1) := h
        _ = 256 ^ k * 256 := by ring
      simp [natToLE, leToNat, ih _ hdiv, Nat.mod_add_div]

theorem uvarintDecode_uvarintAux (fuel : Nat) :
    ∀ (n : Nat) (rest : List Byte), n < 128 ^ (fuel + 1) →
      uvarintDecode (uvarintAux (fuel + 1) n ++ rest) = some (n, rest) := by
  induction fuel with
  | zero =>
      intro n rest h
      have h128 : n < 128 := by simpa using h
      simp [uvarintAux, h128, uvarintDecode]
  | succ fuel ih =>
      intro n rest h
      by_cases h128 : n < 128
      · simp [uvarintAux, h128, uvarintDecode]
      · have hdiv : n / 128 < 128 ^ (fuel + 1) := by
          rw [Nat.div_lt_iff_lt_mul (by norm_num)]
          calc n < 128 ^ (fuel + 1 + 1) := h
          _ = 128 ^ (fuel + 1) * 128 := by ring
        have hstep : uvarintAux (fuel + 1 + 1) n
            = (n % 128 + 128) :: uvarintAux (fuel + 1) (n / 128) := by
          simp [uvarintAux, h128]
        rw [hstep, List.cons_append]
        have hm : ¬ (n % 128 + 128 < 128) := by omega
        simp only [uvarintDecode, hm, if_false]
        rw [ih _ rest hdiv]
        dsimp only
        have : n % 128 + 128 - 128 + 128 * (n / 128) = n := by omega
        rw [this]

theorem uvarintDecode_uvarint (n : Nat) (rest : List Byte) :
    uvarintDecode (uvarint n ++ rest) = some (n, rest) := by
  have hlt : n < 128 ^ (n + 1) := by
    calc n < 128 ^ n := Nat.lt_pow_self (by norm_num) n
    _ ≤ 128 ^ (n + 1) := Nat.pow_le_pow_right (by norm_num) (by omega)
  exact uvarintDecode_uvarintAux n n rest hlt

theorem length_literalChunks (bs : List Byte) :
    (literalChunks bs).length = 2 * bs.length := by
  induction bs with
  | nil => rfl
  | cons b tl ih => simp [literalChunks, ih]; omega

theorem decompressChunksAux_literalChunks (bs : List Byte) :
    ∀ (fuel : Nat), bs.length ≤ fuel →
      decompressChunksAux fuel (literalChunks bs) = some bs := by
  induction bs with
  | nil => intro fuel _; cases fuel <;> simp [literalChunks, decompressChunksAux]
  | cons b tl ih =>
      intro fuel h
      cases fuel with
      | zero => simp at h
      | succ fuel =>
          have htl : tl.length ≤ fuel := by simpa using h
          simp [literalChunks, decompressChunksAux, ih fuel htl]

theorem decompressChunks_literalChunks (bs : List Byte) :
    decompressChunks (literalChunks bs) = some bs := by
  unfold decompressChunks
  exact decompressChunksAux_literalChunks bs _
    (by rw [length_literalChunks]; omega)

theorem decompress_compress (bs : List Byte) :
    decompress (compress bs) = some bs := by
  simp [decompress, compress, uvarintDecode_uvarint,
    decompressChunks_literalChunks]

theorem length_uvarint_le (n : Nat) (h : n < 128 * 128) :
    (uvarint n).length ≤ 2 := by
  unfold uvarint
  by_cases h1 : n < 128
  · simp [uvarintAux, h1]
  · have h2 : n / 128 < 128 := by omega
    cases n with
    | zero => omega
    | succ m =>
        simp only [uvarintAux, h1, if_false, List.length_cons]
        simp [uvarintAux, h2]

theorem triple_fields (a b c : Nat) (ha : a < 256 ^ 8) (hb : b < 256 ^ 8)
    (hc : c < 256 ^ 8) :
    let bs := natToLE 8 a ++ natToLE 8 b ++ natToLE 8 c
    bs.length = 24 ∧ leToNat (bs.take 8) = a ∧
      leToNat ((bs.drop 8).take 8) = b ∧ leToNat (bs.drop 16) = c := by
  intro bs
  have hA := length_natToLE 8 a
  have hB := length_natToLE 8 b
  have hC := length_natToLE 8 c
  have hd8 : bs.drop 8 = natToLE 8 b ++ natToLE 8 c := by
    show ((natToLE 8 a ++ natToLE 8 b ++ natToLE 8 c)).drop 8 = _
    rw [List.append_assoc]
    exact List.drop_left' hA
  refine ⟨by simp [bs, hA, hB, hC], ?_, ?_, ?_⟩
  · show leToNat ((natToLE 8 a ++ natToLE 8 b ++ natToLE 8 c).take 8) = a
    rw [List.append_assoc, List.take_left' hA, leToNat_natToLE _ _ ha]
  · rw [hd8, List.take_left' hB, leToNat_natToLE _ _ hb]
  · have : bs.drop 16 = (bs.drop 8).drop 8 := by rw [List.drop_drop]
    rw [this, hd8, List.drop_left' hB, leToNat_natToLE _ _ hc]

theorem deserialize_serialize (m : ProtocolMessage) (h : ValidMsg m) :
    deserialize (kindOf m) (serialize m) = some m := by
  cases m with
  | ping id =>
      simp only [ValidMsg] at h
      simp [kindOf, serialize, deserialize, length_natToLE, leToNat_natToLE _ _ h]
  | status a b c =>
      obtain ⟨ha, hb, hc⟩ := h
      obtain ⟨hlen, h1, h2, h3⟩ := triple_fields a b c ha hb hc
      show deserialize MsgKind.status (natToLE 8 a ++ natToLE 8 b ++ natToLE 8 c) = _
      simp only [deserialize]
      rw [if_pos hlen, h1, h2, h3]
  | metadata a b c =>
      obtain ⟨ha, hb, hc⟩ := h
      obtain ⟨hlen, h1, h2, h3⟩ := triple_fields a b c ha hb hc
      show deserialize MsgKind.metadata (natToLE 8 a ++ natToLE 8 b ++ natToLE 8 c) = _
      simp only [deserialize]
      rw [if_pos hlen, h1, h2, h3]
  | blocksByRange a b c =>
      obtain ⟨ha, hb, hc⟩ := h
      obtain ⟨hlen, h1, h2, h3⟩ := triple_fields a b c ha hb hc
      show deserialize MsgKind.blocksByRange
        (natToLE 8 a ++ natToLE 8 b ++ natToLE 8 c) = _
      simp only [deserialize]
      rw [if_pos hlen, h1, h2, h3]

theorem length_serialize_le (m : ProtocolMessage) :
    (serialize m).length ≤ 24 := by
  cases m <;> simp [serialize, length_natToLE]

theorem length_compress_serialize_le (m : ProtocolMessage) :
    (compress (serialize m)).length ≤ maxMessageSize := by
  have h1 := length_serialize_le m
  have h2 := length_literalChunks (serialize m)
  have h3 : (uvarint (serialize m).length).length ≤ 2 :=
    length_uvarint_le _ (by omega)
  simp only [compress, List.length_append]
  simp only [maxMessageSize]
  omega

theorem decode_encode (m : ProtocolMessage) (h : ValidMsg m) :
    decode (kindOf m) (encode m) = some (m, []) := by
  unfold encode decode
  rw [uvarintDecode_uvarint]
  dsimp only
  have hle := length_compress_serialize_le m
  have hgt : ¬ ((compress (serialize m)).length > maxMessageSize) := by omega
  rw [if_neg hgt, if_neg (by omega)]
  rw [List.take_length, List.drop_length]
  rw [decompress_compress]
  dsimp only
  rw [deserialize_serialize m h]

end SszSnappy

namespace GoStr

theorem hasPre_append (p s : Str) : hasPre p (p ++ s) = true := by
  induction p with
  | nil => rfl
  | cons c cs ih => simp [hasPre, ih]

theorem hasPre_append_of_le (p : Str) :
    ∀ (q s : Str), p.length ≤ q.length → hasPre p (q ++ s) = hasPre p q := by
  induction p with
  | nil => intro q s _; rfl
  | cons c cs ih =>
      intro q s h
      cases q with
      | nil => simp at h
      | cons d ds => simp [hasPre, ih ds s (by simpa using h)]

theorem trimPre_append (p s : Str) : trimPre p (p ++ s) = s := by
  simp [trimPre, hasPre_append, List.drop_left]

theorem strToLower_append (a b : Str) :
    strToLower (a ++ b) = strToLower a ++ strToLower b := by
  simp [strToLower]

theorem append_ne_of_length_lt (q s r : Str) (h : r.length < q.length) :
    q ++ s ≠ r := by
  intro hEq
  have hl := congrArg List.length hEq
  simp only [List.length_append] at hl
  omega

end GoStr

namespace Sentinel

open GoStr

theorem foldl_if_filter_getLast (P : Str × GossipSubscription → Bool) :
    ∀ (l : List (Str × GossipSubscription)) (acc : Option GossipSubscription),
      l.foldl (fun a p => if P p then some p.2 else a) acc
        = (match (l.filter P).getLast? with
            | some p => some p.2
            | none => acc) := by
  intro l
  induction l with
  | nil => intro acc; rfl
  | cons x xs ih =>
      intro acc
      simp only [List.foldl_cons, List.filter_cons]
      by_cases hx : P x
      · simp only [hx, if_true]
        rw [ih (some x.2)]
        cases hf : xs.filter P with
        | nil => simp [hf]
        | cons y ys =>
            simp only [hf, List.getLast?_cons_cons]
            cases hg : (y :: ys).getLast? with
            | none => simp [List.getLast?_eq_none_iff] at hg
            | some z => rfl
      · simp only [hx, if_false, Bool.false_eq_true]
        rw [ih acc]

end Sentinel

namespace Health

open GoStr

theorem ph2Header_mpc5 (env : Env) :
    ph2Header env (("min_peer_count5").toList)
      = checkMinPeers 5 env.peerCount := by
  simp only [ph2Header]
  rw [show strToLower (("min_peer_count5").toList) = ("min_peer_count5").toList
    from by decide]
  rw [if_neg (by decide)]
  dsimp only
  rw [if_neg (by decide)]
  dsimp only
  rw [if_pos (by decide)]
  rw [show atoi (trimPre (("min_peer_count").toList) (("min_peer_count5").toList))
      = .ok 5 from rfl]
  dsimp only
  rw [show uintOfInt 5 = 5 from by decide]
  cases hck : checkMinPeers 5 env.peerCount with
  | some e => simp only [hck]
  | none =>
      simp only [hck]
      rw [if_neg (by decide)]

theorem ph2Header_msb (env : Env) (s : Str) (hls : strToLower s = s) :
    ph2Header env (("max_seconds_behind").toList ++ s)
      = (match atoi s with
         | .error e => some e
         | .ok secs0 =>
             processTimeCheck env (env.now - (if secs0 < 0 then 600 else secs0))) := by
  have hlow : strToLower (("max_seconds_behind").toList ++ s)
      = ("max_seconds_behind").toList ++ s := by
    rw [strToLower_append, hls]
    rw [show strToLower (("max_seconds_behind").toList)
      = ("max_seconds_behind").toList from by decide]
  simp only [ph2Header]
  rw [hlow]
  rw [if_neg (append_ne_of_length_lt _ s _ (by decide))]
  dsimp only
  rw [if_neg (by rw [hasPre_append_of_le _ _ _ (by decide)]; decide)]
  dsimp only
  rw [if_neg (by rw [hasPre_append_of_le _ _ _ (by decide)]; decide)]
  dsimp only
  rw [if_pos (hasPre_append _ s), trimPre_append]

theorem PH2_singleton (env : Env) (hdr : Str) :
    ProcessHealthcheck2 env [hdr] = ph2Header env hdr := by
  simp only [ProcessHealthcheck2]
  cases h : ph2Header env hdr <;> simp [h, ProcessHealthcheck2]

end Health

/-- C4: for every valid protocol message of every registered kind, decoding
the frame produced by encoding the message yields the message again,
consuming the whole frame: decode(encode(m)) == m. -/
theorem C4_decode_encode_roundtrip (m : SszSnappy.ProtocolMessage)
    (h : SszSnappy.ValidMsg m) :
    SszSnappy.decode (SszSnappy.kindOf m) (SszSnappy.encode m) = some (m, []) :=
  SszSnappy.decode_encode m h

/-- C4 witness: the round-trip evaluated at the concrete message Ping 1. -/
theorem C4_decode_encode_roundtrip_witness :
    SszSnappy.ValidMsg (.ping 1) ∧
    SszSnappy.decode (SszSnappy.kindOf (.ping 1)) (SszSnappy.encode (.ping 1))
      = some (.ping 1, []) :=
  ⟨by decide, C4_decode_encode_roundtrip (.ping 1) (by decide)⟩

/-- C5: in the JSON-body mode, reportHealth writes a JSON object mapping
the three check names to HEALTHY, DISABLED or an "ERROR: " string, and the
status is 200 exactly when every check that is not the disabled sentinel
produced no error, otherwise 500. -/
theorem C5_reportHealth_body_and_status (e1 e2 e3 : Health.HErr) :
    (Health.reportHealth e1 e2 e3).2
      = [(("healthcheck_query").toList, Health.errorStringOrOK e1),
         (("min_peer_count").toList, Health.errorStringOrOK e2),
         (("check_block").toList, Health.errorStringOrOK e3)] ∧
    (∀ e : Health.HErr,
      Health.errorStringOrOK e = ("HEALTHY").toList
        ∨ Health.errorStringOrOK e = ("DISABLED").toList
        ∨ GoStr.hasPre (("ERROR: ").toList) (Health.errorStringOrOK e) = true) ∧
    ((Health.reportHealth e1 e2 e3).1 = 200 ∨
      (Health.reportHealth e1 e2 e3).1 = 500) ∧
    ((Health.reportHealth e1 e2 e3).1 = 200
      ↔ ((e1 = .disabled ∨ e1 = .ok) ∧ (e2 = .disabled ∨ e2 = .ok) ∧
          (e3 = .disabled ∨ e3 = .ok))) := by
  refine ⟨rfl, ?_, ?_, ?_⟩
  · intro e
    cases e with
    | ok => exact Or.inl rfl
    | disabled => exact Or.inr (Or.inl rfl)
    | fail m => exact Or.inr (Or.inr (GoStr.hasPre_append _ m))
  · cases e1 <;> cases e2 <;> cases e3 <;>
      simp [Health.reportHealth, Health.shouldChangeStatusCode]
  · cases e1 <;> cases e2 <;> cases e3 <;>
      simp [Health.reportHealth, Health.shouldChangeStatusCode]

/-- C6 counterexample: with a finality-update subscription whose topic has
2 peers while the node has 5 connected network peers, GetPeersCount returns
2, not the node's connected-peer count 5. -/
theorem C6_counterexample :
    Sentinel.GetPeersCount
        ⟨[1, 2, 3, 4, 5],
         [(("light_client_finality_update").toList,
           Sentinel.GossipSubscription.mk [10, 11])]⟩ = 2 ∧
    ([1, 2, 3, 4, 5] : List Nat).length = 5 := by
  exact ⟨rfl, rfl⟩

/-- C6 amended: GetPeersCount returns the topic peer count of the last
subscription whose topic contains the finality-update fragment when such a
subscription exists, and the node's connected-peer count only otherwise. -/
theorem C6_amended (s : Sentinel.SentinelState) :
    Sentinel.GetPeersCount s
      = (match (s.subscriptions.filter
            (fun p => GoStr.hasSub Sentinel.LightClientFinalityUpdateTopic p.1)).getLast? with
         | some p => p.2.topicPeers.length
         | none => s.networkPeers.length) := by
  unfold Sentinel.GetPeersCount
  rw [Sentinel.foldl_if_filter_getLast
    (fun p => GoStr.hasSub Sentinel.LightClientFinalityUpdateTopic p.1)]
  cases (s.subscriptions.filter
    (fun p => GoStr.hasSub Sentinel.LightClientFinalityUpdateTopic p.1)).getLast? <;>
    rfl

/-- C8: in the outbound ping exchange the stream, once opened, is closed on
every exit path — success, write failure, wrong packet size, status-read
failure and decode failure — and it counts as opened exactly when peer
selection and stream creation both succeed. -/
theorem C8_stream_released (w : Sentinel.PingWorld) :
    ((Sentinel.pingRequest w).streamOpened = true →
      (Sentinel.pingRequest w).streamClosed = true) ∧
    ((Sentinel.pingRequest w).streamOpened = true
      ↔ (w.connectOk = true ∧ w.streamOpenOk = true)) := by
  obtain ⟨c, o, wr, cw, resp⟩ := w
  cases c with
  | false => simp [Sentinel.pingRequest]
  | true =>
      cases o with
      | false => simp [Sentinel.pingRequest]
      | true =>
          simp only [Sentinel.pingRequest]
          rcases wr with e | n
          · simp
          · by_cases hn : n = 8
            · subst hn
              rcases resp with _ | ⟨b, rest⟩
              · simp
              · by_cases hb : b = 1
                · subst hb
                  rcases hd : SszSnappy.decode .ping rest with _ | ⟨pm, r2⟩
                  · simp [hd]
                  · cases pm <;> simp [hd]
                · simp [hb]
            · simp [hn]

/-- C8 witness: on a completed exchange the stream was opened and closed. -/
theorem C8_stream_released_witness :
    (Sentinel.pingRequest pingWorldStatus0).streamOpened = true ∧
    (Sentinel.pingRequest pingWorldStatus0).streamClosed = true :=
  ⟨by rfl, (C8_stream_released pingWorldStatus0).1 (by rfl)⟩

/-- C2 (code divergence): the peer answers with status byte 0 — the code
the spec designates as success — followed by the echo frame Ping with Id 1,
which decodes to Ping 1; yet the requester never attempts the decode (it
decodes only on status byte 1) and finishes observing id 0 rather than the
echoed id 1. -/
theorem C2_success_status_not_decoded :
    (Sentinel.pingRequest pingWorldStatus0).statusByte = some 0 ∧
    (Sentinel.pingRequest pingWorldStatus0).decodeAttempted = false ∧
    (Sentinel.pingRequest pingWorldStatus0).completed = true ∧
    (Sentinel.pingRequest pingWorldStatus0).pongId = 0 ∧
    SszSnappy.decode .ping (pingWorldStatus0.response.drop 1)
      = some (.ping 1, []) :=
  ⟨rfl, rfl, rfl, rfl, rfl⟩

/-- C7: the encoded ping request payload is exactly 8 bytes; a write
reporting any size other than 8 aborts the exchange before any status byte
is read or frame decoded; and on the response path exactly one status byte
is consumed before frame decoding, so the frame decoder sees the response
minus precisely its first byte. -/
theorem C7_ping_wire_format (id : Nat) (w : Sentinel.PingWorld) :
    (SszSnappy.serialize (.ping id)).length = 8 ∧
    (∀ n, w.writeResult = .ok n → n ≠ 8 →
      (Sentinel.pingRequest w).statusByte = none ∧
      (Sentinel.pingRequest w).decodeAttempted = false ∧
      (Sentinel.pingRequest w).completed = false) ∧
    (w.connectOk = true → w.streamOpenOk = true → w.writeResult = .ok 8 →
      (Sentinel.pingRequest w).statusByte = w.response.head? ∧
      ((Sentinel.pingRequest w).decodeAttempted = true →
        (Sentinel.pingRequest w).pongId
          = (match SszSnappy.decode .ping (w.response.drop 1) with
             | some (.ping pid, _) => pid
             | _ => 0))) := by
  obtain ⟨c, o, wr, cw, resp⟩ := w
  refine ⟨SszSnappy.length_natToLE 8 id, ?_, ?_⟩
  · intro n hn hne
    cases c with
    | false => simp [Sentinel.pingRequest]
    | true =>
        cases o with
        | false => simp [Sentinel.pingRequest]
        | true =>
            simp only at hn
            subst hn
            simp [Sentinel.pingRequest, hne]
  · intro hc ho hw
    simp only at hc ho hw
    subst hc; subst ho; subst hw
    simp only [Sentinel.pingRequest]
    rcases resp with _ | ⟨b, rest⟩
    · simp
    · by_cases hb : b = 1
      · subst hb
        rcases hd : SszSnappy.decode .ping rest with _ | ⟨pm, r2⟩
        · simp [hd]
        · cases pm <;> simp [hd]
      · simp [hb]

/-- C7 witness: the 8-byte payload at id 1; the aborted exchange after a
7-byte write; the status byte read on the good path. -/
theorem C7_ping_wire_format_witness :
    (SszSnappy.serialize (.ping 1)).length = 8 ∧
    ((Sentinel.pingRequest pingWorldShortWrite).statusByte = none ∧
     (Sentinel.pingRequest pingWorldShortWrite).decodeAttempted = false ∧
     (Sentinel.pingRequest pingWorldShortWrite).completed = false) ∧
    (Sentinel.pingRequest pingWorldStatus0).statusByte
      = pingWorldStatus0.response.head? :=
  ⟨(C7_ping_wire_format 1 pingWorldShortWrite).1,
   (C7_ping_wire_format 1 pingWorldShortWrite).2.1 7 rfl (by decide),
   ((C7_ping_wire_format 1 pingWorldStatus0).2.2 rfl rfl rfl).1⟩

/-- C1 counterexample: GET /health with header min_peer_count5 while 3
peers are connected yields status 500 but a bare "ERROR: ..." string body;
the body does not contain the JSON fragment the claim requires. -/
theorem C1_counterexample :
    Health.ProcessHealthcheckIfNeeded env3
        ⟨("/health").toList, [("min_peer_count5").toList], .ok ⟨none, none⟩⟩
      = some ⟨500, .plain (("ERROR: not enough peers: 3 (minimum 5)").toList)⟩ ∧
    GoStr.hasSub (("\"min_peer_count\":\"ERROR: ").toList)
      (("ERROR: not enough peers: 3 (minimum 5)").toList) = false :=
  ⟨rfl, rfl⟩

/-- C1 amended: GET /health with header min_peer_count5 while fewer than 5
peers are connected responds 500 with the bare error string
"ERROR: <message>" as its body — a plain string, not a JSON mapping from
check names. -/
theorem C1_amended (env : Health.Env) (h : env.peerCount < 5) :
    Health.ProcessHealthcheckIfNeeded env
        ⟨("/health").toList, [("min_peer_count5").toList], .ok ⟨none, none⟩⟩
      = some ⟨500, .plain ((("ERROR: ").toList) ++
          ((("not enough peers: ").toList ++ GoStr.natChars env.peerCount ++
            ((" (minimum ").toList) ++ GoStr.natChars 5 ++ ((")").toList))))⟩ := by
  have hck : Health.checkMinPeers 5 env.peerCount
      = some ((("not enough peers: ").toList ++ GoStr.natChars env.peerCount ++
          ((" (minimum ").toList) ++ GoStr.natChars 5 ++ ((")").toList))) := by
    unfold Health.checkMinPeers
    rw [if_pos h]
  have h2 : Health.ProcessHealthcheck2 env [("min_peer_count5").toList]
      = some ((("not enough peers: ").toList ++ GoStr.natChars env.peerCount ++
          ((" (minimum ").toList) ++ GoStr.natChars 5 ++ ((")").toList))) := by
    rw [Health.PH2_singleton, Health.ph2Header_mpc5, hck]
  unfold Health.ProcessHealthcheckIfNeeded
  rw [if_neg (by decide)]
  dsimp only
  rw [if_pos (by decide)]
  rw [h2]
  rfl

/-- C1 witness for the amended claim, at 3 connected peers. -/
theorem C1_amended_witness :
    env3.peerCount < 5 ∧
    Health.ProcessHealthcheckIfNeeded env3
        ⟨("/health").toList, [("min_peer_count5").toList], .ok ⟨none, none⟩⟩
      = some ⟨500, .plain (("ERROR: not enough peers: 3 (minimum 5)").toList)⟩ :=
  ⟨by decide, (C1_amended env3 (by decide)).trans (by rfl)⟩

/-- C10: a /health request in body mode (no header value) whose body fails
to parse as JSON yields status 500 with healthcheck_query mapped to an
"ERROR: " string and the two checks mapped to DISABLED; the response does
not depend on the environment, so no check is evaluated. -/
theorem C10_invalid_body (env : Health.Env) (e : GoStr.Str)
    (hs : List GoStr.Str)
    (hhead : (match hs with | [] => ([] : GoStr.Str) | h :: _ => h) = []) :
    Health.ProcessHealthcheckIfNeeded env ⟨("/health").toList, hs, .error e⟩
      = some ⟨500, .jsonMap
          [(("healthcheck_query").toList, ("ERROR: ").toList ++ e),
           (("min_peer_count").toList, ("DISABLED").toList),
           (("check_block").toList, ("DISABLED").toList)]⟩ := by
  simp only [Health.ProcessHealthcheckIfNeeded]
  rw [if_neg (by decide)]
  rw [hhead]
  rw [if_neg (by simp)]
  rfl

/-- C10 witness: the empty header list with Go's empty-body JSON error. -/
theorem C10_invalid_body_witness :
    Health.ProcessHealthcheckIfNeeded env3
        ⟨("/health").toList, [], .error (("unexpected end of JSON input").toList)⟩
      = some ⟨500, .jsonMap
          [(("healthcheck_query").toList,
            ("ERROR: unexpected end of JSON input").toList),
           (("min_peer_count").toList, ("DISABLED").toList),
           (("check_block").toList, ("DISABLED").toList)]⟩ :=
  (C10_invalid_body env3 (("unexpected end of JSON input").toList) [] rfl).trans
    (by rfl)

/-- C9 counterexample: with the latest block carrying the uint64 timestamp
2^63 (which Go wraps to -2^63) at clock 1000, the header
max_seconds_behind600 check passes and the handler answers 200, although
the block's timestamp value exceeds now minus 600 — where the claim
demands an error and status 500. -/
theorem C9_counterexample :
    Health.ProcessHealthcheck2 envWrap [("max_seconds_behind600").toList]
      = none ∧
    ¬ (((2 ^ 63 : Nat) : Int) ≤ envWrap.now - 600) ∧
    ((Health.ProcessHealthcheckIfNeeded envWrap
        ⟨("/health").toList, [("max_seconds_behind600").toList],
         .ok ⟨none, none⟩⟩).map Health.HealthResponse.status
      = some 200) :=
  ⟨rfl, by decide, rfl⟩

/-- C9 amended: a header-mode request with header max_seconds_behind
followed by an integer numeral parsing to N replaces a negative N by 600
and then passes exactly when the latest block timestamp — converted to a
64-bit int with Go's wrapping uint64-to-int conversion — is at most now
minus the bound, yielding status 200, and fails with status 500
otherwise. -/
theorem C9_max_seconds_behind (env : Health.Env) (s : GoStr.Str) (N : Int)
    (ts : Nat) (bp : Except GoStr.Str Health.RequestBody)
    (hls : GoStr.strToLower s = s)
    (hats : GoStr.atoi s = .ok N)
    (hblk : env.latestBlock = .ok (some ts)) :
    (Health.ProcessHealthcheck2 env [("max_seconds_behind").toList ++ s] = none
      ↔ GoStr.int64OfUint64 ts ≤ env.now - (if N < 0 then 600 else N)) ∧
    ((Health.ProcessHealthcheckIfNeeded env
        ⟨("/health").toList, [("max_seconds_behind").toList ++ s], bp⟩).map
          Health.HealthResponse.status
      = some (if GoStr.int64OfUint64 ts ≤ env.now - (if N < 0 then 600 else N)
              then 200 else 500)) := by
  have hpt : ∀ B : Int,
      (Health.processTimeCheck env B = none) ↔ GoStr.int64OfUint64 ts ≤ B := by
    intro B
    simp only [Health.processTimeCheck, hblk]
    by_cases hgt : GoStr.int64OfUint64 ts > B
    · rw [if_pos hgt]
      simp
      omega
    · rw [if_neg hgt]
      simp
      omega
  have hph : Health.ph2Header env (("max_seconds_behind").toList ++ s)
      = Health.processTimeCheck env (env.now - (if N < 0 then 600 else N)) := by
    rw [Health.ph2Header_msb env s hls, hats]
  have hP : Health.ProcessHealthcheck2 env [("max_seconds_behind").toList ++ s]
      = Health.processTimeCheck env (env.now - (if N < 0 then 600 else N)) := by
    rw [Health.PH2_singleton, hph]
  have hne : ("max_seconds_behind").toList ++ s ≠ [] := by
    intro hEq
    have hl := congrArg List.length hEq
    rw [List.length_append,
      show (("max_seconds_behind").toList).length = 18 from by decide] at hl
    simp only [List.length_nil] at hl
    omega
  constructor
  · rw [hP]
    exact hpt _
  · simp only [Health.ProcessHealthcheckIfNeeded]
    rw [if_neg (by decide)]
    rw [if_pos hne]
    by_cases hle : GoStr.int64OfUint64 ts ≤ env.now - (if N < 0 then 600 else N)
    · rw [show Health.ProcessHealthcheck2 env
          [("max_seconds_behind").toList ++ s] = none
        from hP.trans ((hpt _).mpr hle)]
      rw [if_pos hle]
      rfl
    · rcases hcase : Health.processTimeCheck env
          (env.now - (if N < 0 then 600 else N)) with _ | m
      · exact absurd ((hpt _).mp hcase) hle
      · rw [hP, hcase, if_neg hle]
        rfl

/-- C9 witness: header max_seconds_behind600 with latest block timestamp 5
at clock 1000 passes and yields status 200. -/
theorem C9_max_seconds_behind_witness :
    (Health.ProcessHealthcheck2 envTime
        [("max_seconds_behind").toList ++ ("600").toList] = none
      ↔ GoStr.int64OfUint64 5 ≤ envTime.now - (if (600 : Int) < 0 then 600 else 600)) ∧
    ((Health.ProcessHealthcheckIfNeeded envTime
        ⟨("/health").toList, [("max_seconds_behind").toList ++ ("600").toList],
         .ok ⟨none, none⟩⟩).map Health.HealthResponse.status
      = some (if GoStr.int64OfUint64 5 ≤ envTime.now - (if (600 : Int) < 0 then 600 else 600)
              then 200 else 500)) :=
  C9_max_seconds_behind envTime (("600").toList) 600 5 (.ok ⟨none, none⟩)
    (by decide) (by rfl) (by rfl)

/-- C3 counterexample: the IPv6 loopback is a usable IPv6 address, yet
createListener rejects it before binding and Start aborts with the wrapped
error, contradicting acceptance of every usable IPv4 or IPv6 address. -/
theorem C3_counterexample :
    Sentinel.specUsableAddr listenWorldV6.parsedIP = true ∧
    Sentinel.createListener listenWorldV6
      = .error (("IPV4 address not provided instead ::1 was provided").toList) ∧
    Sentinel.Start listenWorldV6 none
      = .error (("failed creating sentinel listener err=" ++
          "IPV4 address not provided instead ::1 was provided").toList) :=
  ⟨rfl, rfl, rfl⟩

/-- C3 amended: createListener proceeds to bind exactly for addresses whose
To4 form is non-nil (IPv4, including IPv4-mapped IPv6) with all later
startup steps succeeding; every other configured address — usable IPv6
included — produces an error before binding, and Start propagates any
createListener error wrapped as a fatal startup failure. -/
theorem C3_amended (w : Sentinel.ListenWorld) :
    (isOkE (Sentinel.createListener w)
      = ((Sentinel.ipTo4 w.parsedIP).isSome && w.listenUDPErr.isNone
          && w.localNodeErr.isNone && w.listenV5Err.isNone)) ∧
    (∀ e, Sentinel.createListener w = .error e →
      Sentinel.Start w none
        = .error (("failed creating sentinel listener err=").toList ++ e)) := by
  constructor
  · obtain ⟨str, pip, u, l, v⟩ := w
    cases h4 : Sentinel.ipTo4 pip with
    | none => simp [Sentinel.createListener, isOkE, h4]
    | some q =>
        cases u <;> cases l <;> cases v <;>
          simp [Sentinel.createListener, isOkE, h4]
  · intro e he
    unfold Sentinel.Start
    rw [he]

/-- C3 witness: Start aborts with the wrapped validation error for the
usable IPv6 loopback configuration. -/
theorem C3_amended_witness :
    Sentinel.Start listenWorldV6 none
      = .error (("failed creating sentinel listener err=" ++
          "IPV4 address not provided instead ::1 was provided").toList) :=
  ((C3_amended listenWorldV6).2
    (("IPV4 address not provided instead ::1 was provided").toList)
    (by rfl)).trans (by rfl)
